import Mathlib

/-!
Shallow embedding of `rust-ffmpeg-tool` (`src/main.rs`): a batch video
compressor that discovers files under an input directory, invokes `ffmpeg`
once per file with a fixed argument template, redirects the encoder's output
to a per-job log file, drives a progress bar, and optionally deletes the
original files after an interactive confirmation.

Pure functions of the source are translated to Lean functions; filesystem
state is threaded explicitly through a small `FS` record; the external
process runner and `create_dir_all` are oracles passed as parameters.
-/

/-! ## String helpers (Rust `str::trim`, `eq_ignore_ascii_case`,
    `Path::file_stem` / `Path::extension` semantics) -/

/-- ASCII/Latin-1 fragment of Rust `char::is_whitespace` (Unicode
`White_Space`), enough for the characters the program can meet on a
confirmation line. -/
def rustIsWhitespaceChar (c : Char) : Bool :=
  c = ' ' || c = '\t' || c = '\n' || c = '\r' || c = '\x0b' || c = '\x0c'

/-- Rust `str::trim`: remove leading and trailing whitespace. -/
def rustTrim (s : String) : String :=
  ⟨((s.data.dropWhile rustIsWhitespaceChar).reverse.dropWhile
      rustIsWhitespaceChar).reverse⟩

/-- Lower-case an ASCII letter, leave every other character unchanged
(Rust `u8::to_ascii_lowercase`, lifted to chars). -/
def asciiLowerChar (c : Char) : Char :=
  if 65 ≤ c.toNat ∧ c.toNat ≤ 90 then Char.ofNat (c.toNat + 32) else c

/-- Rust `str::eq_ignore_ascii_case`. -/
def eqIgnoreAsciiCase (a b : String) : Bool :=
  decide (a.data.map asciiLowerChar = b.data.map asciiLowerChar)

/-- Split a character list at its last `'.'`: returns
`some (before, after)` when a dot occurs, `none` otherwise. -/
def splitLastDot : List Char → Option (List Char × List Char)
  | [] => none
  | c :: rest =>
    match splitLastDot rest with
    | some (b, a) => some (c :: b, a)
    | none => if c = '.' then some ([], rest) else none

/-- Rust `Path::file_stem` and `Path::extension` applied to a file name:
the portion before the final `'.'` and the portion after it; a name that
begins with `'.'` and has no other dot is all stem, with no extension. -/
def stemExt (cs : List Char) : List Char × Option (List Char) :=
  match cs with
  | [] => ([], none)
  | c :: rest =>
    if c = '.' then
      match splitLastDot rest with
      | none => (c :: rest, none)
      | some (b, a) => (c :: b, some a)
    else
      match splitLastDot (c :: rest) with
      | none => (c :: rest, none)
      | some (b, a) => (b, some a)

/-- Rust `Path::set_extension` applied to a file name: keep the stem and
attach the new extension. -/
def withExtString (name ext : String) : String :=
  if ext.data = [] then ⟨(stemExt name.data).1⟩
  else ⟨(stemExt name.data).1 ++ '.' :: ext.data⟩

/-! ## Paths

A Rust `OsStr` is a byte string that may or may not be valid UTF-8; we model
it as its best-effort decoding together with a validity flag, which is all
`to_str` observes.  A `Path` is its list of components. -/

structure OsStr where
  data : String
  valid : Bool
deriving DecidableEq, Repr

/-- Rust `OsStr::to_str`: `some` exactly when the bytes are valid UTF-8. -/
def OsStr.toStr (s : OsStr) : Option String :=
  if s.valid then some s.data else none

abbrev RPath := List OsStr

/-- Rust `Path::file_name`: the last component. -/
def RPath.fileName (p : RPath) : Option OsStr := p.getLast?

/-- Whether every component of the path is valid UTF-8. -/
def pathValid (p : RPath) : Bool := p.all (fun c => c.valid)

/-- Rust `Path::to_str`. -/
def RPath.toStr (p : RPath) : Option String :=
  if pathValid p then some (String.intercalate "/" (p.map OsStr.data))
  else none

/-- Rust `Path::with_extension`: replace the extension of the last
component (a path with no file name is returned unchanged). -/
def RPath.withExtension (p : RPath) (ext : String) : RPath :=
  match p.getLast? with
  | none => p
  | some n => p.dropLast ++ [⟨withExtString n.data ext, n.valid⟩]

/-- The nonempty prefixes of a path: the chain of directories
`create_dir_all` creates. -/
def RPath.prefixChain (p : RPath) : List RPath :=
  (List.range p.length).map (fun i => p.take (i + 1))

/-- Boolean test that `root` is a prefix of `p` (the walk of `root`
reaches `p`). -/
def underRoot : List OsStr → List OsStr → Bool
  | [], _ => true
  | _ :: _, [] => false
  | a :: as, b :: bs => decide (a = b) && underRoot as bs

/-! ## Filesystem state -/

structure FS where
  dirs : List RPath
  files : List RPath
deriving DecidableEq, Repr

/-- Rust `Path::exists`. -/
def pathExists (fs : FS) (p : RPath) : Bool :=
  decide (p ∈ fs.dirs) || decide (p ∈ fs.files)

/-- Effect of `fs::create_dir_all`: every missing directory on the chain
down to `d` comes into existence. -/
def FS.createDirAll (fs : FS) (d : RPath) : FS :=
  ⟨fs.dirs ++ (RPath.prefixChain d).filter (fun q => decide (q ∉ fs.dirs)),
   fs.files⟩

/-- Effect of `fs::File::create`: the file exists afterwards (truncated;
the presence-level state does not change if it already existed). -/
def FS.createFile (fs : FS) (p : RPath) : FS :=
  if decide (p ∈ fs.files) then fs else ⟨fs.dirs, p :: fs.files⟩

/-- Possible I/O errors surfaced by the program. -/
inductive IoErr where
  | notFound
  | spawnFailed
  | other
deriving DecidableEq, Repr

/-- Rust `fs::remove_file`: fails when the file does not exist. -/
def FS.removeFile (fs : FS) (p : RPath) : Except IoErr FS :=
  if decide (p ∈ fs.files) then Except.ok ⟨fs.dirs, fs.files.erase p⟩
  else Except.error IoErr.notFound

/-- `WalkDir::new(root) … filter is_file`: the regular files living under
`root`, in traversal order. -/
def discover (fs : FS) (root : RPath) : List RPath :=
  fs.files.filter (fun p => underRoot root p)

/-- Lines 11–13 of `main.rs`:
`if !output_dir.exists() { fs::create_dir_all(output_dir)?; }`.
`mkdirs` is the `create_dir_all` oracle. -/
def createOutputDir (mkdirs : FS → RPath → Except IoErr FS) (fs : FS)
    (d : RPath) : Except IoErr FS :=
  if pathExists fs d then Except.ok fs else mkdirs fs d

/-- The default `create_dir_all` oracle: the concrete `FS` effect, never
failing. -/
def defaultMkdirs : FS → RPath → Except IoErr FS :=
  fun fs d => Except.ok (fs.createDirAll d)

/-! ## The compression batch (`compress_videos`, lines 9–77 of `main.rs`)

The external `ffmpeg` process is an oracle
`run : List String → Except IoErr Bool`: `Except.error` models a spawn
failure (`.status()?` propagating), `Except.ok b` a process that ran and
exited with success flag `b`. -/

/-- Result of a computation that may also diverge by panicking
(`Option::unwrap` on `None`). -/
inductive Outcome (α : Type) where
  | ok (a : α)
  | ioError (e : IoErr)
  | panicked
deriving DecidableEq, Repr

/-- The fixed ffmpeg argument template of lines 44–60, as a function of
the two unwrapped path strings. -/
def ffmpegArgs (input output : String) : List String :=
  ["-i", input, "-movflags", "use_metadata_tags", "-map_metadata", "0",
   "-vcodec", "hevc_nvenc", "-preset", "fast", "-crf", "28", "-c:a",
   "copy", output]

/-- Lines 39–40: `output_dir.join(video_file.file_name().unwrap())` and
`output_file.with_extension("log")`, as a function of the unwrapped file
name. -/
def jobPaths (outputDir : RPath) (name : OsStr) : RPath × RPath :=
  (outputDir ++ [name], RPath.withExtension (outputDir ++ [name]) "log")

/-- Lines 39–60: derive the job's argument list and log path from the
source file.  `none` means one of the `unwrap`s panics: `file_name()` on a
path without a file name, or `to_str()` on a non-UTF-8 path. -/
def jobSpec (outputDir : RPath) (f : RPath) : Option (List String × RPath) :=
  match RPath.fileName f with
  | none => none
  | some name =>
    match RPath.toStr f, RPath.toStr (jobPaths outputDir name).1 with
    | some fstr, some ostr => some (ffmpegArgs fstr ostr, (jobPaths outputDir name).2)
    | _, _ => none

/-- One job of the loop body, seen from the process runner: panic on a
non-representable path, propagate a spawn error, otherwise report the
exit-success flag. -/
def runJob (run : List String → Except IoErr Bool) (outputDir : RPath)
    (f : RPath) : Outcome Bool :=
  match jobSpec outputDir f with
  | none => Outcome.panicked
  | some (args, _) =>
    match run args with
    | Except.error e => Outcome.ioError e
    | Except.ok b => Outcome.ok b

/-- Whether a job completes with a zero exit status. -/
def jobOk (run : List String → Except IoErr Bool) (outputDir : RPath)
    (f : RPath) : Bool :=
  match runJob run outputDir f with
  | Outcome.ok true => true
  | _ => false

/-- Accumulated observable state of the `for video_file in video_files`
loop: outcome, filesystem, progress-bar position, the failure diagnostics
printed to stderr (the offending source paths, in order), and the encoder
invocations attempted (argument lists, in order). -/
structure BatchAcc where
  result : Outcome Unit
  fs : FS
  progress : Nat
  diags : List RPath
  invocations : List (List String)
deriving DecidableEq, Repr

/-- Lines 38–72: the batch loop.  Per file: build the descriptor (panic if
a path is not representable), create the log file twice
(`.stdout(File::create(&log_file)?).stderr(File::create(&log_file)?)`),
spawn ffmpeg (a spawn error aborts the whole loop via `?`), then on exit
success bump the progress bar, on failure print a diagnostic and go on. -/
def runBatch (run : List String → Except IoErr Bool) (outputDir : RPath) :
    List RPath → FS → BatchAcc
  | [], fs => ⟨Outcome.ok (), fs, 0, [], []⟩
  | f :: rest, fs =>
    match jobSpec outputDir f with
    | none => ⟨Outcome.panicked, fs, 0, [], []⟩
    | some (args, lg) =>
      let fs1 := (fs.createFile lg).createFile lg
      match run args with
      | Except.error e => ⟨Outcome.ioError e, fs1, 0, [], [args]⟩
      | Except.ok true =>
        let acc := runBatch run outputDir rest fs1
        ⟨acc.result, acc.fs, acc.progress + 1, acc.diags,
         args :: acc.invocations⟩
      | Except.ok false =>
        let acc := runBatch run outputDir rest fs1
        ⟨acc.result, acc.fs, acc.progress, f :: acc.diags,
         args :: acc.invocations⟩

/-- Observable report of one `compress_videos` call: final outcome,
whether the "No video files found" message was printed, the progress bar's
total and final position, the stderr diagnostics, the encoder invocations,
and whether the bar reached its finish message (the Done state). -/
structure BatchReport where
  result : Outcome Unit
  noFilesMsg : Bool
  total : Nat
  progress : Nat
  diags : List RPath
  invocations : List (List String)
  done : Bool
deriving DecidableEq, Repr

/-- `compress_videos(input_dir, output_dir)`, lines 9–77: create the
output directory if absent, discover the files, return cleanly with a
message when none are found, otherwise run the batch and finish the
progress bar only when the loop completes. -/
def compressVideos (mkdirs : FS → RPath → Except IoErr FS)
    (run : List String → Except IoErr Bool) (fs : FS)
    (inputDir outputDir : RPath) : BatchReport × FS :=
  match createOutputDir mkdirs fs outputDir with
  | Except.error e => (⟨Outcome.ioError e, false, 0, 0, [], [], false⟩, fs)
  | Except.ok fs1 =>
    let files := discover fs1 inputDir
    if files.isEmpty then
      (⟨Outcome.ok (), true, 0, 0, [], [], false⟩, fs1)
    else
      let acc := runBatch run outputDir files fs1
      match acc.result with
      | Outcome.ok _ =>
        (⟨Outcome.ok (), false, files.length, acc.progress, acc.diags,
          acc.invocations, true⟩, acc.fs)
      | Outcome.ioError e =>
        (⟨Outcome.ioError e, false, files.length, acc.progress, acc.diags,
          acc.invocations, false⟩, acc.fs)
      | Outcome.panicked =>
        (⟨Outcome.panicked, false, files.length, acc.progress, acc.diags,
          acc.invocations, false⟩, acc.fs)

/-! ## The cleanup gate (`delete_original_files`, lines 79–99) -/

/-- Line 89: `input.trim().eq_ignore_ascii_case("Y")`. -/
def consentGiven (input : String) : Bool :=
  eqIgnoreAsciiCase (rustTrim input) "Y"

/-- Lines 90–93: delete the files in order; `fs::remove_file(...)?`
propagates the first failure, abandoning the rest.  Returns the outcome,
the filesystem reached, and the per-file deletion confirmations printed
(the deleted paths, in order). -/
def deleteLoop (fs : FS) : List RPath → Except IoErr Unit × FS × List RPath
  | [] => (Except.ok (), fs, [])
  | f :: rest =>
    match fs.removeFile f with
    | Except.error e => (Except.error e, fs, [])
    | Except.ok fs1 =>
      let r := deleteLoop fs1 rest
      (r.1, r.2.1, f :: r.2.2)

deriving instance DecidableEq for Except

/-- Observable report of one `delete_original_files` call. -/
structure CleanupResult where
  result : Except IoErr Unit
  fs : FS
  prompted : Bool
  deleted : List RPath
  finalMsg : Bool
deriving DecidableEq, Repr

/-- `delete_original_files(video_files)` with the line read from stdin
made explicit: return early on an empty list, prompt, and delete exactly
when the trimmed input matches "Y" case-insensitively.  `finalMsg` is the
closing "Original files deleted." print. -/
def deleteOriginalFiles (fs : FS) (files : List RPath) (input : String) :
    CleanupResult :=
  if files.isEmpty then ⟨Except.ok (), fs, false, [], false⟩
  else if consentGiven input then
    let r := deleteLoop fs files
    match r.1 with
    | Except.ok _ => ⟨Except.ok (), r.2.1, true, r.2.2, true⟩
    | Except.error e => ⟨Except.error e, r.2.1, true, r.2.2, false⟩
  else ⟨Except.ok (), fs, true, [], false⟩

/-! ## Byte-level model of the log redirection (lines 61–63)

`.stdout(fs::File::create(&log_file)?)` and
`.stderr(fs::File::create(&log_file)?)` hand the child two file
descriptors for the same path, each freshly truncated and each with its
own file offset starting at 0.  We model the log's content under a write
trace of the child: a sequence of chunks, each tagged with the stream that
wrote it. -/

inductive StreamTag where
  | out
  | err
deriving DecidableEq, Repr

/-- Overwrite `d` into `c` at offset `pos` (zero-filling any gap), the
POSIX `pwrite` behaviour of a positioned file write. -/
def writeAt (c : List Nat) (pos : Nat) (d : List Nat) : List Nat :=
  c.take pos ++ List.replicate (pos - c.length) 0 ++ d
    ++ c.drop (pos + d.length)

/-- Replay a write trace through the two descriptors the code creates:
each stream advances only its own offset, both over the same content. -/
def twoHandleRun : List Nat → Nat → Nat → List (StreamTag × List Nat) →
    List Nat
  | content, _, _, [] => content
  | content, oPos, ePos, (StreamTag.out, d) :: rest =>
    twoHandleRun (writeAt content oPos d) (oPos + d.length) ePos rest
  | content, oPos, ePos, (StreamTag.err, d) :: rest =>
    twoHandleRun (writeAt content ePos d) oPos (ePos + d.length) rest

/-- Final log content as the code produces it. -/
def logContentTwoHandles (trace : List (StreamTag × List Nat)) : List Nat :=
  twoHandleRun [] 0 0 trace

/-- Replay the same trace through a single shared descriptor (what one
`File::create` handed to both streams would do): every write lands at the
shared advancing offset, so the chunks concatenate in trace order. -/
def sharedHandleRun : List Nat → Nat → List (StreamTag × List Nat) →
    List Nat
  | content, _, [] => content
  | content, pos, (_, d) :: rest =>
    sharedHandleRun (writeAt content pos d) (pos + d.length) rest

/-- Final log content a shared descriptor would produce. -/
def logContentShared (trace : List (StreamTag × List Nat)) : List Nat :=
  sharedHandleRun [] 0 trace

/-- All the bytes a given stream writes over the trace, in order. -/
def streamBytes (t : StreamTag) (trace : List (StreamTag × List Nat)) :
    List Nat :=
  (trace.filter (fun p => decide (p.1 = t))).map Prod.snd |>.flatten

/-- Fuel-driven worker for `interleavings` (structural recursion on the
fuel, so that concrete instances evaluate). -/
def interleavingsFuel : Nat → List Nat → List Nat → List (List Nat)
  | _, [], ys => [ys]
  | _, x :: xs, [] => [x :: xs]
  | 0, _ :: _, _ :: _ => []
  | fuel + 1, x :: xs, y :: ys =>
    (interleavingsFuel fuel xs (y :: ys)).map (fun l => x :: l)
      ++ (interleavingsFuel fuel (x :: xs) ys).map (fun l => y :: l)

/-- All interleavings of two byte sequences (each sequence's internal
order preserved): the possible contents of a log that contains both
streams in full. -/
def interleavings (a b : List Nat) : List (List Nat) :=
  interleavingsFuel (a.length + b.length) a b

/-! ## Rust `file_stem` / `extension` accessors of a file name -/

/-- Rust `Path::file_stem` of a file name. -/
def fileStemStr (s : String) : String := ⟨(stemExt s.data).1⟩

/-- Rust `Path::extension` of a file name. -/
def fileExtStr (s : String) : Option String :=
  (stemExt s.data).2.map (fun l => ⟨l⟩)

/-! ## Helper lemmas -/

lemma splitLastDot_eq_none (l : List Char) (h : '.' ∉ l) :
    splitLastDot l = none := by
  induction l with
  | nil => rfl
  | cons c rest ih =>
    have hc : ¬c = '.' := fun hcc => h (hcc ▸ List.mem_cons_self c rest)
    have hr : '.' ∉ rest := fun hm => h (List.mem_cons_of_mem c hm)
    simp [splitLastDot, ih hr, hc]

lemma splitLastDot_append_no_dot (l ext : List Char) (hx : '.' ∉ ext) :
    splitLastDot (l ++ '.' :: ext) = some (l, ext) := by
  induction l with
  | nil => simp [splitLastDot, splitLastDot_eq_none ext hx]
  | cons c rest ih => simp [splitLastDot, ih]

lemma stemExt_append (st ext : List Char) (hst : st ≠ []) (hx : '.' ∉ ext) :
    stemExt (st ++ '.' :: ext) = (st, some ext) := by
  cases st with
  | nil => exact absurd rfl hst
  | cons c st2 =>
    by_cases hc : c = '.'
    · subst hc
      simp [stemExt, splitLastDot_append_no_dot st2 ext hx]
    · simp only [List.cons_append, stemExt, if_neg hc]
      rw [← List.cons_append, splitLastDot_append_no_dot (c :: st2) ext hx]

lemma stemExt_fst_ne_nil (cs : List Char) (h : cs ≠ []) :
    (stemExt cs).1 ≠ [] := by
  cases cs with
  | nil => exact absurd rfl h
  | cons c rest =>
    by_cases hc : c = '.'
    · subst hc
      cases hs : splitLastDot rest with
      | none => simp [stemExt, hs]
      | some p => cases p with
        | mk b a => simp [stemExt, hs]
    · cases hs : splitLastDot rest with
      | none => simp [stemExt, hc, splitLastDot, hs]
      | some p =>
        cases p with
        | mk b a => simp [stemExt, hc, splitLastDot, hs]

lemma self_mem_prefixChain (d : RPath) (hd : d ≠ []) :
    d ∈ RPath.prefixChain d := by
  have hlen : 0 < d.length := List.length_pos.mpr hd
  refine List.mem_map.mpr ⟨d.length - 1, List.mem_range.mpr (by omega), ?_⟩
  rw [Nat.sub_add_cancel hlen]
  exact List.take_length d

/-! ## Claim C10: the consent check trims whitespace -/

/-- C10: the cleanup consent check strips leading and trailing whitespace
before the case-insensitive comparison, so the input `"  y  "` is
affirmative and `delete_original_files` behaves on it exactly as on a bare
`"y"`, whatever the filesystem and file list are. -/
theorem consent_trims_whitespace :
    consentGiven "  y  " = true ∧
    ∀ (fs : FS) (files : List RPath),
      deleteOriginalFiles fs files "  y  " = deleteOriginalFiles fs files "y" := by
  refine ⟨by decide, fun fs files => ?_⟩
  have h1 : consentGiven "  y  " = true := by decide
  have h2 : consentGiven "y" = true := by decide
  simp [deleteOriginalFiles, h1, h2]

/-! ## Claim C4: the per-job log redirection -/

/-- C4: lines 61–63 hand the child two independently truncated handles to
`log_path`, each with its own offset.  On a run whose encoder writes four
bytes to stdout and then two bytes to stderr, the resulting log content is
the stderr bytes overwriting the start of the stdout bytes — not an
interleaving of the two streams (which a single shared handle would have
produced).  The spec's claim that the log contains the interleaved
standard output and standard error therefore fails on the code. -/
theorem log_two_handles_clobber :
    logContentTwoHandles [(StreamTag.out, [1, 1, 1, 1]), (StreamTag.err, [2, 2])]
      = [2, 2, 1, 1]
    ∧ logContentTwoHandles
        [(StreamTag.out, [1, 1, 1, 1]), (StreamTag.err, [2, 2])]
      ∉ interleavings
        (streamBytes StreamTag.out
          [(StreamTag.out, [1, 1, 1, 1]), (StreamTag.err, [2, 2])])
        (streamBytes StreamTag.err
          [(StreamTag.out, [1, 1, 1, 1]), (StreamTag.err, [2, 2])])
    ∧ logContentShared [(StreamTag.out, [1, 1, 1, 1]), (StreamTag.err, [2, 2])]
      = [1, 1, 1, 1, 2, 2]
    ∧ logContentShared [(StreamTag.out, [1, 1, 1, 1]), (StreamTag.err, [2, 2])]
      ∈ interleavings
        (streamBytes StreamTag.out
          [(StreamTag.out, [1, 1, 1, 1]), (StreamTag.err, [2, 2])])
        (streamBytes StreamTag.err
          [(StreamTag.out, [1, 1, 1, 1]), (StreamTag.err, [2, 2])]) := by
  decide

/-! ## Claim C8: output-directory creation is idempotent -/

/-- C8: the directory-creation step of lines 11–13 is a no-op without
error whenever the output directory already exists, for any
`create_dir_all` oracle; and with the concrete `create_dir_all` effect,
performing the step twice equals performing it once. -/
theorem output_dir_creation_idempotent :
    (∀ (mkdirs : FS → RPath → Except IoErr FS) (fs : FS) (d : RPath),
      pathExists fs d = true → createOutputDir mkdirs fs d = Except.ok fs)
    ∧ (∀ (fs : FS) (d : RPath), d ≠ [] →
      (createOutputDir defaultMkdirs fs d).bind
          (fun fs1 => createOutputDir defaultMkdirs fs1 d)
        = createOutputDir defaultMkdirs fs d) := by
  constructor
  · intro mkdirs fs d h
    simp [createOutputDir, h]
  · intro fs d hd
    by_cases hex : pathExists fs d
    · simp [createOutputDir, hex, Except.bind]
    · have hmem : d ∈ (fs.createDirAll d).dirs := by
        simp only [FS.createDirAll]
        by_cases hin : d ∈ fs.dirs
        · exact List.mem_append.mpr (Or.inl hin)
        · refine List.mem_append.mpr (Or.inr ?_)
          refine List.mem_filter.mpr ⟨self_mem_prefixChain d hd, ?_⟩
          simpa using hin
      have hex2 : pathExists (fs.createDirAll d) d = true := by
        simp [pathExists, hmem]
      simp [createOutputDir, hex, defaultMkdirs, Except.bind, hex2]

/-- Witness for C8 at a concrete state: an already existing directory is
left alone, and creating a missing one twice equals creating it once. -/
theorem output_dir_creation_idempotent_witness :
    (pathExists ⟨[[⟨"out", true⟩]], []⟩ [⟨"out", true⟩] = true ∧
      createOutputDir defaultMkdirs ⟨[[⟨"out", true⟩]], []⟩ [⟨"out", true⟩]
        = Except.ok ⟨[[⟨"out", true⟩]], []⟩)
    ∧ ([⟨"fresh", true⟩] ≠ ([] : RPath) ∧
      (createOutputDir defaultMkdirs ⟨[], []⟩ [⟨"fresh", true⟩]).bind
          (fun fs1 => createOutputDir defaultMkdirs fs1 [⟨"fresh", true⟩])
        = createOutputDir defaultMkdirs ⟨[], []⟩ [⟨"fresh", true⟩]) :=
  ⟨⟨by decide,
    output_dir_creation_idempotent.1 defaultMkdirs ⟨[[⟨"out", true⟩]], []⟩
      [⟨"out", true⟩] (by decide)⟩,
   ⟨by decide,
    output_dir_creation_idempotent.2 ⟨[], []⟩ [⟨"fresh", true⟩] (by decide)⟩⟩

/-! ## Claim C9: non-UTF-8 paths make the runner panic -/

/-- C9: for a discovered file with file name `name`, the process-runner
step diverges by panicking (`to_str().unwrap()` on `None`) exactly when
the source path or the derived output path is not valid UTF-8; under the
precondition that both are valid UTF-8 it never panics. -/
theorem nonutf8_unwrap_diverges (run : List String → Except IoErr Bool)
    (outputDir f : RPath) (name : OsStr) (h : RPath.fileName f = some name) :
    (runJob run outputDir f = Outcome.panicked ↔
      (pathValid f = false ∨ pathValid (outputDir ++ [name]) = false)) := by
  unfold runJob jobSpec
  rw [h]
  by_cases hv : pathValid f <;>
    by_cases hw : pathValid (outputDir ++ [name]) <;>
      simp [RPath.toStr, jobPaths, hv, hw]
  split <;> simp

/-- Witness for C9: a single-component path whose name is not valid UTF-8
makes the runner panic. -/
theorem nonutf8_unwrap_diverges_witness :
    RPath.fileName [(⟨"movie", false⟩ : OsStr)] = some ⟨"movie", false⟩ ∧
    (runJob (fun _ => Except.ok true) [⟨"out", true⟩] [⟨"movie", false⟩]
        = Outcome.panicked ↔
      (pathValid [(⟨"movie", false⟩ : OsStr)] = false ∨
        pathValid ([⟨"out", true⟩] ++ [⟨"movie", false⟩]) = false)) :=
  ⟨by decide,
   nonutf8_unwrap_diverges (fun _ => Except.ok true) [⟨"out", true⟩]
     [⟨"movie", false⟩] ⟨"movie", false⟩ (by decide)⟩

/-! ## Claim C7: empty discovery returns cleanly -/

/-- C7: when discovery under the input directory yields no files,
`compress_videos` prints the "no video files found" report and returns
`Ok`, with zero encoder invocations, zero diagnostics, no progress bar,
and no filesystem effect beyond the output-directory creation step. -/
theorem empty_discovery_clean_return
    (mkdirs : FS → RPath → Except IoErr FS)
    (run : List String → Except IoErr Bool) (fs fs1 : FS)
    (inputDir outputDir : RPath)
    (hmk : createOutputDir mkdirs fs outputDir = Except.ok fs1)
    (hempty : discover fs1 inputDir = []) :
    compressVideos mkdirs run fs inputDir outputDir =
      (⟨Outcome.ok (), true, 0, 0, [], [], false⟩, fs1) := by
  unfold compressVideos
  rw [hmk]
  simp [hempty]

/-- Witness for C7: an empty filesystem really takes this path. -/
theorem empty_discovery_clean_return_witness :
    createOutputDir defaultMkdirs ⟨[], []⟩ [⟨"out", true⟩]
        = Except.ok ⟨[[⟨"out", true⟩]], []⟩ ∧
    discover ⟨[[⟨"out", true⟩]], []⟩ [⟨"in", true⟩] = [] ∧
    compressVideos defaultMkdirs (fun _ => Except.ok true) ⟨[], []⟩
        [⟨"in", true⟩] [⟨"out", true⟩]
      = (⟨Outcome.ok (), true, 0, 0, [], [], false⟩, ⟨[[⟨"out", true⟩]], []⟩) :=
  ⟨by decide, by decide,
   empty_discovery_clean_return defaultMkdirs (fun _ => Except.ok true)
     ⟨[], []⟩ ⟨[[⟨"out", true⟩]], []⟩ [⟨"in", true⟩] [⟨"out", true⟩]
     (by decide) (by decide)⟩

/-! ## Claim C5: the job descriptor paths -/

/-- C5: the job paths of lines 39–40 are derived deterministically from
the source file name and the output root: the output path is the output
root extended with exactly the source file name, and the log path is its
sibling under the same root, sharing its stem, with the fixed `log`
extension. -/
theorem job_descriptor_paths (outputDir : RPath) (name : OsStr)
    (hn : name.data ≠ "") :
    RPath.fileName (jobPaths outputDir name).1 = some name
    ∧ (jobPaths outputDir name).1.dropLast = outputDir
    ∧ (jobPaths outputDir name).2
        = outputDir ++ [⟨withExtString name.data "log", name.valid⟩]
    ∧ fileStemStr (withExtString name.data "log") = fileStemStr name.data
    ∧ fileExtStr (withExtString name.data "log") = some "log" := by
  have hnl : name.data.data ≠ [] := by
    intro h0
    apply hn
    cases hD : name.data with
    | mk l =>
      rw [hD] at h0
      simp only at h0
      rw [h0]
  have hst : (stemExt name.data.data).1 ≠ [] := stemExt_fst_ne_nil _ hnl
  have hx : ('.' : Char) ∉ "log".data := by decide
  have hkey : stemExt ((stemExt name.data.data).1 ++ ['.', 'l', 'o', 'g'])
      = ((stemExt name.data.data).1, some ['l', 'o', 'g']) :=
    stemExt_append _ _ hst (by decide)
  have hlog : ¬("log".data = ([] : List Char)) := by decide
  refine ⟨?_, ?_, ?_, ?_, ?_⟩
  · simp [jobPaths, RPath.fileName, List.getLast?_concat]
  · simp [jobPaths, List.dropLast_concat]
  · simp [jobPaths, RPath.withExtension, List.getLast?_concat,
      List.dropLast_concat]
  · simp only [withExtString, if_neg hlog, fileStemStr]
    rw [hkey]
  · simp only [withExtString, if_neg hlog, fileExtStr]
    rw [hkey]
    rfl

/-- Witness for C5 on a concrete name with an extension. -/
theorem job_descriptor_paths_witness :
    (OsStr.data ⟨"a.mp4", true⟩ ≠ "") ∧
    (RPath.fileName (jobPaths [⟨"out", true⟩] ⟨"a.mp4", true⟩).1
        = some ⟨"a.mp4", true⟩
    ∧ (jobPaths [⟨"out", true⟩] ⟨"a.mp4", true⟩).1.dropLast = [⟨"out", true⟩]
    ∧ (jobPaths [⟨"out", true⟩] ⟨"a.mp4", true⟩).2
        = [⟨"out", true⟩] ++ [⟨withExtString "a.mp4" "log", true⟩]
    ∧ fileStemStr (withExtString "a.mp4" "log") = fileStemStr "a.mp4"
    ∧ fileExtStr (withExtString "a.mp4" "log") = some "log") :=
  ⟨by decide, job_descriptor_paths [⟨"out", true⟩] ⟨"a.mp4", true⟩ (by decide)⟩

/-! ## Cleanup-loop lemmas -/

lemma deleteLoop_ok (files : List RPath) (fs : FS)
    (hnd : files.Nodup) (hfsnd : fs.files.Nodup)
    (hsub : ∀ f ∈ files, f ∈ fs.files) :
    deleteLoop fs files
      = (Except.ok (),
         ⟨fs.dirs, files.foldl (fun acc f => acc.erase f) fs.files⟩,
         files) := by
  induction files generalizing fs with
  | nil => rfl
  | cons f rest ih =>
    have hf : f ∈ fs.files := hsub f (List.mem_cons_self f rest)
    have hrm : fs.removeFile f = Except.ok ⟨fs.dirs, fs.files.erase f⟩ := by
      simp [FS.removeFile, hf]
    have hfnotin : f ∉ rest := (List.nodup_cons.mp hnd).1
    have hx := ih ⟨fs.dirs, fs.files.erase f⟩ (List.nodup_cons.mp hnd).2
      (hfsnd.erase f)
      (fun g hg => by
        have hgf : g ≠ f := fun he => hfnotin (he ▸ hg)
        exact (List.mem_erase_of_ne hgf).mpr
          (hsub g (List.mem_cons_of_mem f hg)))
    simp [deleteLoop, hrm, hx]

lemma deleteLoop_fail (pre : List RPath) (fs : FS) (bad : RPath)
    (post : List RPath) (hnd : pre.Nodup) (hfsnd : fs.files.Nodup)
    (hsub : ∀ f ∈ pre, f ∈ fs.files) (hbad : bad ∉ fs.files) :
    deleteLoop fs (pre ++ bad :: post)
      = (Except.error IoErr.notFound,
         ⟨fs.dirs, pre.foldl (fun acc f => acc.erase f) fs.files⟩,
         pre) := by
  induction pre generalizing fs with
  | nil =>
    have hrm : fs.removeFile bad = Except.error IoErr.notFound := by
      simp [FS.removeFile, hbad]
    simp [deleteLoop, hrm]
  | cons p pre2 ih =>
    have hp : p ∈ fs.files := hsub p (List.mem_cons_self p pre2)
    have hrm : fs.removeFile p = Except.ok ⟨fs.dirs, fs.files.erase p⟩ := by
      simp [FS.removeFile, hp]
    have hpnotin : p ∉ pre2 := (List.nodup_cons.mp hnd).1
    have hx := ih ⟨fs.dirs, fs.files.erase p⟩ (List.nodup_cons.mp hnd).2
      (hfsnd.erase p)
      (fun g hg => by
        have hgp : g ≠ p := fun he => hpnotin (he ▸ hg)
        exact (List.mem_erase_of_ne hgp).mpr
          (hsub g (List.mem_cons_of_mem p hg)))
      (fun hm => hbad (List.mem_of_mem_erase hm))
    simp [deleteLoop, hrm, hx]

/-! ## Claim C1: deletion happens exactly on an affirmative answer -/

/-- C1: on a nonempty file list whose entries exist, the cleanup gate
deletes every enumerated file exactly when the confirmation line is the
affirmative letter (case-insensitively, after trimming); on any other
input — empty, "n", "no", whitespace-only — it deletes nothing, leaves
the filesystem untouched and takes no further action. -/
theorem cleanup_consent_iff (fs : FS) (files : List RPath) (input : String)
    (hne : files ≠ []) (hnd : files.Nodup) (hfsnd : fs.files.Nodup)
    (hsub : ∀ f ∈ files, f ∈ fs.files) :
    (consentGiven input = true →
      deleteOriginalFiles fs files input
        = ⟨Except.ok (),
           ⟨fs.dirs, files.foldl (fun acc f => acc.erase f) fs.files⟩,
           true, files, true⟩)
    ∧ (consentGiven input = false →
      deleteOriginalFiles fs files input
        = ⟨Except.ok (), fs, true, [], false⟩)
    ∧ consentGiven "" = false ∧ consentGiven "n" = false
    ∧ consentGiven "no" = false ∧ consentGiven "   " = false
    ∧ consentGiven "y" = true ∧ consentGiven "Y" = true := by
  have hloop := deleteLoop_ok files fs hnd hfsnd hsub
  have hEmpty : files.isEmpty = false := by
    cases files with
    | nil => exact absurd rfl hne
    | cons a b => rfl
  refine ⟨?_, ?_, by decide, by decide, by decide, by decide, by decide,
    by decide⟩
  · intro hc
    simp [deleteOriginalFiles, hEmpty, hc, hloop]
  · intro hc
    simp [deleteOriginalFiles, hEmpty, hc]

/-- Witness for C1 on a concrete two-file state with the input "y". -/
theorem cleanup_consent_iff_witness :
    (consentGiven "y" = true →
      deleteOriginalFiles ⟨[], [[⟨"a", true⟩], [⟨"b", true⟩]]⟩
          [[⟨"a", true⟩], [⟨"b", true⟩]] "y"
        = ⟨Except.ok (),
           ⟨[], [[⟨"a", true⟩], [⟨"b", true⟩]].foldl
              (fun acc f => acc.erase f) [[⟨"a", true⟩], [⟨"b", true⟩]]⟩,
           true, [[⟨"a", true⟩], [⟨"b", true⟩]], true⟩)
    ∧ (consentGiven "y" = false →
      deleteOriginalFiles ⟨[], [[⟨"a", true⟩], [⟨"b", true⟩]]⟩
          [[⟨"a", true⟩], [⟨"b", true⟩]] "y"
        = ⟨Except.ok (), ⟨[], [[⟨"a", true⟩], [⟨"b", true⟩]]⟩, true, [],
           false⟩)
    ∧ consentGiven "" = false ∧ consentGiven "n" = false
    ∧ consentGiven "no" = false ∧ consentGiven "   " = false
    ∧ consentGiven "y" = true ∧ consentGiven "Y" = true :=
  cleanup_consent_iff ⟨[], [[⟨"a", true⟩], [⟨"b", true⟩]]⟩
    [[⟨"a", true⟩], [⟨"b", true⟩]] "y" (by decide) (by decide) (by decide)
    (by decide)

/-! ## Claim C6: a deletion failure aborts the cleanup -/

/-- C6: when the files before `bad` exist but `bad` does not, confirming
deletion removes exactly the files before `bad`, then fails with the
propagated error: no later file is touched, and the earlier deletions are
not restored. -/
theorem cleanup_abort_on_failure (fs : FS) (pre post : List RPath)
    (bad : RPath) (hnd : pre.Nodup) (hfsnd : fs.files.Nodup)
    (hsub : ∀ f ∈ pre, f ∈ fs.files) (hbad : bad ∉ fs.files) :
    deleteOriginalFiles fs (pre ++ bad :: post) "y"
      = ⟨Except.error IoErr.notFound,
         ⟨fs.dirs, pre.foldl (fun acc f => acc.erase f) fs.files⟩,
         true, pre, false⟩ := by
  have hloop := deleteLoop_fail pre fs bad post hnd hfsnd hsub hbad
  have hEmpty : (pre ++ bad :: post).isEmpty = false := by
    cases pre <;> rfl
  have hc : consentGiven "y" = true := by decide
  simp [deleteOriginalFiles, hEmpty, hc, hloop]

/-- Witness for C6: one existing file before a missing one; the existing
file stays deleted, the rest is abandoned, the error is surfaced. -/
theorem cleanup_abort_on_failure_witness :
    ([[⟨"a", true⟩]] : List RPath).Nodup ∧
    [⟨"gone", true⟩] ∉ ([[⟨"a", true⟩]] : List RPath) ∧
    deleteOriginalFiles ⟨[], [[⟨"a", true⟩]]⟩
        ([[⟨"a", true⟩]] ++ [⟨"gone", true⟩] :: [[⟨"c", true⟩]]) "y"
      = ⟨Except.error IoErr.notFound,
         ⟨[], [[⟨"a", true⟩]].foldl (fun acc f => acc.erase f)
            [[⟨"a", true⟩]]⟩,
         true, [[⟨"a", true⟩]], false⟩ :=
  ⟨by decide, by decide,
   cleanup_abort_on_failure ⟨[], [[⟨"a", true⟩]]⟩ [[⟨"a", true⟩]]
     [[⟨"c", true⟩]] [⟨"gone", true⟩] (by decide) (by decide) (by decide)
     (by decide)⟩

/-! ## Batch-loop lemmas -/

lemma length_filter_split (p : RPath → Bool) (l : List RPath) :
    (l.filter p).length + (l.filter (fun x => !(p x))).length = l.length := by
  induction l with
  | nil => rfl
  | cons a l ih => cases h : p a <;> simp [List.filter_cons, h] <;> omega

lemma runBatch_spec (run : List String → Except IoErr Bool)
    (outputDir : RPath) (files : List RPath)
    (Hrun : ∀ a : List String, ∃ b, run a = Except.ok b) :
    ∀ fs : FS, (∀ f ∈ files, (jobSpec outputDir f).isSome = true) →
    (runBatch run outputDir files fs).result = Outcome.ok ()
    ∧ (runBatch run outputDir files fs).progress
        = (files.filter (fun f => jobOk run outputDir f)).length
    ∧ (runBatch run outputDir files fs).diags
        = files.filter (fun f => !(jobOk run outputDir f))
    ∧ (runBatch run outputDir files fs).invocations.length = files.length := by
  induction files with
  | nil => intro fs _; simp [runBatch]
  | cons f rest ih =>
    intro fs Hargs
    obtain ⟨⟨args, lg⟩, hspec⟩ := Option.isSome_iff_exists.mp
      (Hargs f (List.mem_cons_self f rest))
    obtain ⟨b, hb⟩ := Hrun args
    have hjob : jobOk run outputDir f = b := by
      cases b <;> simp [jobOk, runJob, hspec, hb]
    obtain ⟨h1, h2, h3, h4⟩ := ih ((fs.createFile lg).createFile lg)
      (fun g hg => Hargs g (List.mem_cons_of_mem f hg))
    cases b with
    | true =>
      refine ⟨?_, ?_, ?_, ?_⟩ <;>
        simp [runBatch, hspec, hb, h1, h2, h3, h4, List.filter_cons, hjob]
    | false =>
      refine ⟨?_, ?_, ?_, ?_⟩ <;>
        simp [runBatch, hspec, hb, h1, h2, h3, h4, List.filter_cons, hjob]

/-! ## Claim C2: failures do not stop the batch, progress counts successes -/

/-- C2: when every encoder process can be spawned (no spawn errors) and
every discovered path is representable, the batch processes all N
discovered files, reaches the Done state with an `Ok` result, attempts
exactly N invocations, ends the progress bar at N − K where K is the
number of jobs exiting non-zero, and prints exactly the K failing source
paths as diagnostics — even if every job failed. -/
theorem batch_progress_and_diagnostics
    (mkdirs : FS → RPath → Except IoErr FS)
    (run : List String → Except IoErr Bool) (fs fs1 : FS)
    (inputDir outputDir : RPath)
    (hmk : createOutputDir mkdirs fs outputDir = Except.ok fs1)
    (hne : discover fs1 inputDir ≠ [])
    (Hargs : ∀ f ∈ discover fs1 inputDir, (jobSpec outputDir f).isSome = true)
    (Hrun : ∀ a : List String, ∃ b, run a = Except.ok b) :
    (compressVideos mkdirs run fs inputDir outputDir).1.done = true
    ∧ (compressVideos mkdirs run fs inputDir outputDir).1.result
        = Outcome.ok ()
    ∧ (compressVideos mkdirs run fs inputDir outputDir).1.total
        = (discover fs1 inputDir).length
    ∧ (compressVideos mkdirs run fs inputDir outputDir).1.progress
        = (discover fs1 inputDir).length
          - ((discover fs1 inputDir).filter
              (fun f => !(jobOk run outputDir f))).length
    ∧ (compressVideos mkdirs run fs inputDir outputDir).1.diags
        = (discover fs1 inputDir).filter (fun f => !(jobOk run outputDir f))
    ∧ (compressVideos mkdirs run fs inputDir outputDir).1.invocations.length
        = (discover fs1 inputDir).length := by
  obtain ⟨h1, h2, h3, h4⟩ :=
    runBatch_spec run outputDir (discover fs1 inputDir) Hrun fs1 Hargs
  have hEmpty : (discover fs1 inputDir).isEmpty = false := by
    cases hD : discover fs1 inputDir with
    | nil => exact absurd hD hne
    | cons a b => rfl
  have hKN := length_filter_split (fun f => jobOk run outputDir f)
    (discover fs1 inputDir)
  unfold compressVideos
  rw [hmk]
  simp only [hEmpty, Bool.false_eq_true, if_false, h1, h2, h3, h4]
  refine ⟨trivial, trivial, trivial, ?_, trivial, trivial⟩
  omega

/-- Witness for C2: two discovered files of which exactly one job (the
`b.mov` one) exits non-zero; the batch still completes with progress 2 − 1
and a single diagnostic. -/
theorem batch_progress_and_diagnostics_witness :
    (∀ f ∈ discover
        ⟨[[⟨"out", true⟩]],
         [[⟨"in", true⟩, ⟨"a.mp4", true⟩], [⟨"in", true⟩, ⟨"b.mov", true⟩]]⟩
        [⟨"in", true⟩],
      (jobSpec [⟨"out", true⟩] f).isSome = true)
    ∧ ((compressVideos defaultMkdirs
          (fun a => Except.ok (decide ("in/a.mp4" ∈ a)))
          ⟨[], [[⟨"in", true⟩, ⟨"a.mp4", true⟩],
                [⟨"in", true⟩, ⟨"b.mov", true⟩]]⟩
          [⟨"in", true⟩] [⟨"out", true⟩]).1.done = true
      ∧ (compressVideos defaultMkdirs
          (fun a => Except.ok (decide ("in/a.mp4" ∈ a)))
          ⟨[], [[⟨"in", true⟩, ⟨"a.mp4", true⟩],
                [⟨"in", true⟩, ⟨"b.mov", true⟩]]⟩
          [⟨"in", true⟩] [⟨"out", true⟩]).1.result = Outcome.ok ()
      ∧ (compressVideos defaultMkdirs
          (fun a => Except.ok (decide ("in/a.mp4" ∈ a)))
          ⟨[], [[⟨"in", true⟩, ⟨"a.mp4", true⟩],
                [⟨"in", true⟩, ⟨"b.mov", true⟩]]⟩
          [⟨"in", true⟩] [⟨"out", true⟩]).1.total
        = (discover
            ⟨[[⟨"out", true⟩]],
             [[⟨"in", true⟩, ⟨"a.mp4", true⟩],
              [⟨"in", true⟩, ⟨"b.mov", true⟩]]⟩ [⟨"in", true⟩]).length
      ∧ (compressVideos defaultMkdirs
          (fun a => Except.ok (decide ("in/a.mp4" ∈ a)))
          ⟨[], [[⟨"in", true⟩, ⟨"a.mp4", true⟩],
                [⟨"in", true⟩, ⟨"b.mov", true⟩]]⟩
          [⟨"in", true⟩] [⟨"out", true⟩]).1.progress
        = (discover
            ⟨[[⟨"out", true⟩]],
             [[⟨"in", true⟩, ⟨"a.mp4", true⟩],
              [⟨"in", true⟩, ⟨"b.mov", true⟩]]⟩ [⟨"in", true⟩]).length
          - ((discover
              ⟨[[⟨"out", true⟩]],
               [[⟨"in", true⟩, ⟨"a.mp4", true⟩],
                [⟨"in", true⟩, ⟨"b.mov", true⟩]]⟩ [⟨"in", true⟩]).filter
              (fun f => !(jobOk
                (fun a => Except.ok (decide ("in/a.mp4" ∈ a)))
                [⟨"out", true⟩] f))).length
      ∧ (compressVideos defaultMkdirs
          (fun a => Except.ok (decide ("in/a.mp4" ∈ a)))
          ⟨[], [[⟨"in", true⟩, ⟨"a.mp4", true⟩],
                [⟨"in", true⟩, ⟨"b.mov", true⟩]]⟩
          [⟨"in", true⟩] [⟨"out", true⟩]).1.diags
        = (discover
            ⟨[[⟨"out", true⟩]],
             [[⟨"in", true⟩, ⟨"a.mp4", true⟩],
              [⟨"in", true⟩, ⟨"b.mov", true⟩]]⟩ [⟨"in", true⟩]).filter
            (fun f => !(jobOk
              (fun a => Except.ok (decide ("in/a.mp4" ∈ a)))
              [⟨"out", true⟩] f))
      ∧ (compressVideos defaultMkdirs
          (fun a => Except.ok (decide ("in/a.mp4" ∈ a)))
          ⟨[], [[⟨"in", true⟩, ⟨"a.mp4", true⟩],
                [⟨"in", true⟩, ⟨"b.mov", true⟩]]⟩
          [⟨"in", true⟩] [⟨"out", true⟩]).1.invocations.length
        = (discover
            ⟨[[⟨"out", true⟩]],
             [[⟨"in", true⟩, ⟨"a.mp4", true⟩],
              [⟨"in", true⟩, ⟨"b.mov", true⟩]]⟩ [⟨"in", true⟩]).length) :=
  ⟨by decide,
   batch_progress_and_diagnostics defaultMkdirs
     (fun a => Except.ok (decide ("in/a.mp4" ∈ a)))
     ⟨[], [[⟨"in", true⟩, ⟨"a.mp4", true⟩], [⟨"in", true⟩, ⟨"b.mov", true⟩]]⟩
     ⟨[[⟨"out", true⟩]],
      [[⟨"in", true⟩, ⟨"a.mp4", true⟩], [⟨"in", true⟩, ⟨"b.mov", true⟩]]⟩
     [⟨"in", true⟩] [⟨"out", true⟩] (by decide) (by decide) (by decide)
     (fun a => ⟨decide ("in/a.mp4" ∈ a), rfl⟩)⟩

/-! ## Claim C3: spawn errors are fatal, job failures are not -/

/-- C3: if spawning the encoder for the first discovered file fails, the
whole batch aborts with that error — only that one invocation was
attempted, the progress bar never moved, no per-job diagnostic was
printed, and the Done state is not reached; whereas a job that merely
exits non-zero is recorded as a diagnostic while the batch still
completes with an `Ok` result and reaches Done. -/
theorem spawn_fatal_job_nonfatal :
    (∀ (mkdirs : FS → RPath → Except IoErr FS)
       (run : List String → Except IoErr Bool) (fs fs1 : FS)
       (inputDir outputDir : RPath) (f : RPath) (rest : List RPath)
       (args : List String) (lg : RPath) (e : IoErr),
      createOutputDir mkdirs fs outputDir = Except.ok fs1 →
      discover fs1 inputDir = f :: rest →
      jobSpec outputDir f = some (args, lg) →
      run args = Except.error e →
      ((compressVideos mkdirs run fs inputDir outputDir).1.result
          = Outcome.ioError e
        ∧ (compressVideos mkdirs run fs inputDir outputDir).1.done = false
        ∧ (compressVideos mkdirs run fs inputDir outputDir).1.invocations
            = [args]
        ∧ (compressVideos mkdirs run fs inputDir outputDir).1.progress = 0
        ∧ (compressVideos mkdirs run fs inputDir outputDir).1.diags = []))
    ∧ (∀ (mkdirs : FS → RPath → Except IoErr FS)
         (run : List String → Except IoErr Bool) (fs fs1 : FS)
         (inputDir outputDir : RPath) (f : RPath),
      createOutputDir mkdirs fs outputDir = Except.ok fs1 →
      discover fs1 inputDir ≠ [] →
      (∀ g ∈ discover fs1 inputDir, (jobSpec outputDir g).isSome = true) →
      (∀ a : List String, ∃ b, run a = Except.ok b) →
      f ∈ discover fs1 inputDir →
      jobOk run outputDir f = false →
      ((compressVideos mkdirs run fs inputDir outputDir).1.result
          = Outcome.ok ()
        ∧ (compressVideos mkdirs run fs inputDir outputDir).1.done = true
        ∧ f ∈ (compressVideos mkdirs run fs inputDir outputDir).1.diags)) := by
  constructor
  · intro mkdirs run fs fs1 inputDir outputDir f rest args lg e hmk hdisc
      hspec hrun
    unfold compressVideos
    rw [hmk]
    simp [hdisc, runBatch, hspec, hrun]
  · intro mkdirs run fs fs1 inputDir outputDir f hmk hne Hargs Hrun hmem hfail
    obtain ⟨h1, h2, h3, h4⟩ :=
      runBatch_spec run outputDir (discover fs1 inputDir) Hrun fs1 Hargs
    have hEmpty : (discover fs1 inputDir).isEmpty = false := by
      cases hD : discover fs1 inputDir with
      | nil => exact absurd hD hne
      | cons a b => rfl
    unfold compressVideos
    rw [hmk]
    simp only [hEmpty, Bool.false_eq_true, if_false, h1, h2, h3, h4]
    refine ⟨trivial, trivial, ?_⟩
    exact List.mem_filter.mpr ⟨hmem, by simp [hfail]⟩

/-- Witness for C3: the same one-file state, once under a runner whose
spawn fails and once under a runner that runs but always exits non-zero. -/
theorem spawn_fatal_job_nonfatal_witness :
    ((fun (_ : List String) => Except.error (ε := IoErr) (α := Bool)
        IoErr.spawnFailed) (ffmpegArgs "in/a.mp4" "out/a.mp4")
      = Except.error IoErr.spawnFailed
    ∧ ((compressVideos defaultMkdirs
          (fun _ => Except.error IoErr.spawnFailed)
          ⟨[], [[⟨"in", true⟩, ⟨"a.mp4", true⟩]]⟩
          [⟨"in", true⟩] [⟨"out", true⟩]).1.result
        = Outcome.ioError IoErr.spawnFailed
      ∧ (compressVideos defaultMkdirs
          (fun _ => Except.error IoErr.spawnFailed)
          ⟨[], [[⟨"in", true⟩, ⟨"a.mp4", true⟩]]⟩
          [⟨"in", true⟩] [⟨"out", true⟩]).1.done = false
      ∧ (compressVideos defaultMkdirs
          (fun _ => Except.error IoErr.spawnFailed)
          ⟨[], [[⟨"in", true⟩, ⟨"a.mp4", true⟩]]⟩
          [⟨"in", true⟩] [⟨"out", true⟩]).1.invocations
        = [ffmpegArgs "in/a.mp4" "out/a.mp4"]
      ∧ (compressVideos defaultMkdirs
          (fun _ => Except.error IoErr.spawnFailed)
          ⟨[], [[⟨"in", true⟩, ⟨"a.mp4", true⟩]]⟩
          [⟨"in", true⟩] [⟨"out", true⟩]).1.progress = 0
      ∧ (compressVideos defaultMkdirs
          (fun _ => Except.error IoErr.spawnFailed)
          ⟨[], [[⟨"in", true⟩, ⟨"a.mp4", true⟩]]⟩
          [⟨"in", true⟩] [⟨"out", true⟩]).1.diags = []))
    ∧ (jobOk (fun _ => Except.ok false) [⟨"out", true⟩]
        [⟨"in", true⟩, ⟨"a.mp4", true⟩] = false
    ∧ ((compressVideos defaultMkdirs (fun _ => Except.ok false)
          ⟨[], [[⟨"in", true⟩, ⟨"a.mp4", true⟩]]⟩
          [⟨"in", true⟩] [⟨"out", true⟩]).1.result = Outcome.ok ()
      ∧ (compressVideos defaultMkdirs (fun _ => Except.ok false)
          ⟨[], [[⟨"in", true⟩, ⟨"a.mp4", true⟩]]⟩
          [⟨"in", true⟩] [⟨"out", true⟩]).1.done = true
      ∧ [⟨"in", true⟩, ⟨"a.mp4", true⟩] ∈
          (compressVideos defaultMkdirs (fun _ => Except.ok false)
            ⟨[], [[⟨"in", true⟩, ⟨"a.mp4", true⟩]]⟩
            [⟨"in", true⟩] [⟨"out", true⟩]).1.diags)) :=
  ⟨⟨rfl,
    spawn_fatal_job_nonfatal.1 defaultMkdirs
      (fun _ => Except.error IoErr.spawnFailed)
      ⟨[], [[⟨"in", true⟩, ⟨"a.mp4", true⟩]]⟩
      ⟨[[⟨"out", true⟩]], [[⟨"in", true⟩, ⟨"a.mp4", true⟩]]⟩
      [⟨"in", true⟩] [⟨"out", true⟩] [⟨"in", true⟩, ⟨"a.mp4", true⟩] []
      (ffmpegArgs "in/a.mp4" "out/a.mp4")
      [⟨"out", true⟩, ⟨"a.log", true⟩] IoErr.spawnFailed
      (by decide) (by decide) (by decide) rfl⟩,
   ⟨by decide,
    spawn_fatal_job_nonfatal.2 defaultMkdirs (fun _ => Except.ok false)
      ⟨[], [[⟨"in", true⟩, ⟨"a.mp4", true⟩]]⟩
      ⟨[[⟨"out", true⟩]], [[⟨"in", true⟩, ⟨"a.mp4", true⟩]]⟩
      [⟨"in", true⟩] [⟨"out", true⟩] [⟨"in", true⟩, ⟨"a.mp4", true⟩]
      (by decide) (by decide) (by decide) (fun a => ⟨false, rfl⟩)
      (by decide) (by decide)⟩⟩
